import Mathlib

/-!
Shallow embedding of the hubspot-webhook-handler repository.

Part A models the webhook signature verifier (the unnamed route file with
POST): timestamp window check, signing-string construction, HMAC comparison
with a constant-time equality that is skipped on length mismatch.

Part B models the Cin7 daily sync route (src/app/api/hubspot/webhook/
cin7-daily-sync/route.js): pagination loop, dedup by normalized Cin7 id,
candidate property mapping filtered against the fetched HubSpot schema,
and the per-record search/create/update write phase with error collection.

Remote services (HubSpot, Cin7) and the HMAC primitive are modelled as
explicit oracle parameters; the JavaScript value semantics the code relies
on (nullish coalescing, truthiness, String(), strict equality with the
empty string) are modelled by the JsVal type and its helpers.
-/

/-- Digits of a decimal natural number read left to right; none as soon as
a non-digit character appears. The empty list yields some 0. -/
def decDigits? (l : List Char) : Option Nat :=
  l.foldl (fun acc c => match acc with
    | none => none
    | some n => if c.isDigit then some (n * 10 + (c.toNat - 48)) else none)
    (some 0)

/-- A decimal integer with an optional leading minus sign; none when the
list is empty, is just a minus sign, or holds a non-digit. -/
def parseIntChars : List Char → Option Int
  | [] => none
  | '-' :: rest =>
    if rest.isEmpty then none
    else (decDigits? rest).map (fun n => -(n : Int))
  | l => (decDigits? l).map (fun n => (n : Int))

/-- Leading and trailing whitespace removed, the semantics of the
JavaScript String.prototype.trim on the character list of a string. -/
def jsTrimChars (l : List Char) : List Char :=
  ((l.dropWhile Char.isWhitespace).reverse.dropWhile Char.isWhitespace).reverse

/-- JavaScript String.prototype.trim. -/
def jsTrim (s : String) : String :=
  String.mk (jsTrimChars s.data)

/-- An injective pairing of a secret and a message into one string, used to
instantiate the abstract HMAC oracle in concrete checks: the secret is
length-prefixed in unary with a marker character separating it from the
payload. -/
def pairEncode (s m : String) : String :=
  String.mk (List.replicate s.data.length 'a' ++ 'b' :: (s.data ++ m.data))

/-- Model of a JavaScript value as used by this code base: the routes only
distinguish undefined, null, strings and numbers. -/
inductive JsVal where
  | vUndef : JsVal
  | vNull : JsVal
  | vStr : String → JsVal
  | vNum : Int → JsVal
deriving DecidableEq, Repr

namespace JsVal

/-- JavaScript String(v) for the values that reach it in this code. -/
def jsString : JsVal → String
  | vUndef => "undefined"
  | vNull => "null"
  | vStr s => s
  | vNum n => toString n

/-- Whether a value is nullish (undefined or null), as tested by the
JavaScript nullish-coalescing operator. -/
def nullish : JsVal → Bool
  | vUndef => true
  | vNull => true
  | _ => false

/-- JavaScript truthiness for the values in scope: undefined, null, the
empty string and 0 are falsy. -/
def truthy : JsVal → Bool
  | vUndef => false
  | vNull => false
  | vStr s => s ≠ ""
  | vNum n => n ≠ 0

/-- The JavaScript nullish-coalescing operator a ?? b. -/
def coalesce (a b : JsVal) : JsVal :=
  if a.nullish then b else a

/-- The JavaScript logical-or a || b (first truthy operand). -/
def jsOr (a b : JsVal) : JsVal :=
  if a.truthy then a else b

/-- Strict equality of a value with undefined, null or the empty string,
the emptiness test used by pickExistingProps
(v === undefined || v === null || v === ""). -/
def isEmptyish : JsVal → Bool
  | vUndef => true
  | vNull => true
  | vStr s => s = ""
  | vNum _ => false

end JsVal

namespace WebhookRoute

/-- Model of JavaScript Number(s) on the strings this route receives
(epoch-millisecond timestamps): whitespace is trimmed, the empty string
converts to 0, an optionally signed decimal integer converts to its
value, anything else (including fractional, exponent and hex forms, which
never arise for epoch-millisecond headers) is NaN, modelled as none. -/
def jsNumber (s : String) : Option Int :=
  let t := jsTrimChars s.data
  if t.isEmpty then some 0 else parseIntChars t

/-- The timestamp rejection test of the POST handler:
!ts || Math.abs(now - ts) > 5 * 60 * 1000, where ts = Number(timestamp)
and NaN is falsy. -/
def tsInvalid (now : Int) (tsParsed : Option Int) : Bool :=
  match tsParsed with
  | none => true
  | some ts => ts == 0 || 5 * 60 * 1000 < (now - ts).natAbs

/-- The signature comparison of the POST handler on the computed and
supplied signatures: Buffer lengths (UTF-8 byte counts) are compared
first, and crypto.timingSafeEqual runs only when they are equal. The
first component is the verdict, the second records whether the
constant-time content comparison was invoked. -/
def sigCheck (computed supplied : String) : Bool × Bool :=
  if computed.utf8ByteSize ≠ supplied.utf8ByteSize then (false, false)
  else (computed == supplied, true)

/-- The signing string of the POST handler:
method ++ requestUri ++ rawBody ++ timestamp (template-literal
concatenation, line 21 of the route). -/
def sourceString (method requestUri rawBody timestamp : String) : String :=
  method ++ requestUri ++ rawBody ++ timestamp

/-- The computed signature: HMAC-SHA256 of the signing string under the
secret, base64-encoded. The primitive is an oracle parameter
(hmac secret message). -/
def computedSignature (hmac : String → String → String)
    (secret method requestUri rawBody timestamp : String) : String :=
  hmac secret (sourceString method requestUri rawBody timestamp)

/-- An inbound webhook request: the two headers (none when absent), the
HTTP method, the percent-decoded path plus query, and the raw body. -/
structure WebhookRequest where
  signature : Option String
  timestampHeader : Option String
  method : String
  requestUri : String
  rawBody : String

/-- An HTTP response of the webhook route: either a text body with a
status, or the JSON success body with status 200. -/
inductive HttpResponse where
  | text : String → Nat → HttpResponse
  | jsonOk : HttpResponse
deriving DecidableEq, Repr

/-- Status code of a response (Response.json defaults to 200). -/
def HttpResponse.status : HttpResponse → Nat
  | .text _ s => s
  | .jsonOk => 200

/-- The POST webhook handler. Parameters: the HMAC oracle, the
HUBSPOT_CLIENT_SECRET environment variable (none when unset), the current
time Date.now(), and the request. Returns the response paired with a flag
recording whether crypto.timingSafeEqual was invoked. -/
def POST (hmac : String → String → String) (secret : Option String)
    (now : Int) (req : WebhookRequest) : HttpResponse × Bool :=
  let signature := req.signature.getD ""
  let timestamp := req.timestampHeader.getD ""
  if tsInvalid now (jsNumber timestamp) then
    (.text "Invalid timestamp" 401, false)
  else
    match secret with
    | none => (.text "Missing HUBSPOT_CLIENT_SECRET" 500, false)
    | some sec =>
      let computed := computedSignature hmac sec req.method req.requestUri
        req.rawBody timestamp
      let check := sigCheck computed signature
      if check.1 then (.jsonOk, check.2)
      else (.text "Invalid signature" 401, check.2)

end WebhookRoute

namespace Cin7SyncRoute

open JsVal

/-- A Cin7 sales-order record, with every field the route reads held as a
JavaScript value (vUndef when the field is absent from the response). -/
structure Cin7Order where
  id : JsVal := .vUndef
  Id : JsVal := .vUndef
  OrderId : JsVal := .vUndef
  SalesOrderId : JsVal := .vUndef
  OrderNumber : JsVal := .vUndef
  reference : JsVal := .vUndef
  total : JsVal := .vUndef
  Total : JsVal := .vUndef
  orderTotal : JsVal := .vUndef
  OrderTotal : JsVal := .vUndef
  totalAmount : JsVal := .vUndef
  TotalAmount : JsVal := .vUndef
  productTotal : JsVal := .vUndef
  ProductTotal : JsVal := .vUndef
  freightTotal : JsVal := .vUndef
  deliveryFirstName : JsVal := .vUndef
  deliveryLastName : JsVal := .vUndef
  deliveryCompany : JsVal := .vUndef
  deliveryAddress1 : JsVal := .vUndef
  deliveryAddress2 : JsVal := .vUndef
  deliveryCity : JsVal := .vUndef
  deliveryState : JsVal := .vUndef
  deliveryPostalCode : JsVal := .vUndef
  deliveryCountry : JsVal := .vUndef
  billingCompany : JsVal := .vUndef
deriving DecidableEq, Repr

/-- normalizeCin7Id: String(o?.id ?? o?.Id ?? o?.OrderId ?? o?.SalesOrderId
?? o?.OrderNumber ?? o?.reference ?? "").trim(). -/
def normalizeCin7Id (o : Cin7Order) : String :=
  jsTrim (jsString (coalesce o.id (coalesce o.Id (coalesce o.OrderId
    (coalesce o.SalesOrderId (coalesce o.OrderNumber
      (coalesce o.reference (vStr ""))))))))

/-- normalizeTotal: the first non-nullish of the total field variants,
null when none is present. -/
def normalizeTotal (o : Cin7Order) : JsVal :=
  coalesce o.total (coalesce o.Total (coalesce o.orderTotal
    (coalesce o.OrderTotal (coalesce o.totalAmount (coalesce o.TotalAmount
      (coalesce o.productTotal (coalesce o.ProductTotal .vNull)))))))

/-- pickExistingProps: keep a candidate entry when its value is not
undefined, null or the empty string and its key is in the fetched
property-name set. The candidate mapping and result are association lists
(Object.entries order). -/
def pickExistingProps (allNamesSet : List String)
    (candidateProps : List (String × JsVal)) : List (String × JsVal) :=
  candidateProps.filter fun kv => !kv.2.isEmptyish && allNamesSet.contains kv.1

/-- The internal name of the unique identifier property (UNIQUE_PROP). -/
def UNIQUE_PROP : String := "cin7_order_id"

/-- The candidate property mapping built for one order in the upsert loop
(lines 270-301 of the route), including the shippingName and street
intermediates. -/
def candidateProps (o : Cin7Order) : List (String × JsVal) :=
  let cin7OrderId := normalizeCin7Id o
  let shippingName :=
    jsOr o.deliveryCompany
      (vStr (jsTrim (jsString (jsOr o.deliveryFirstName (vStr "")) ++ " " ++
        jsString (jsOr o.deliveryLastName (vStr "")))))
  let street := jsOr o.deliveryAddress1 (jsOr o.deliveryAddress2 (vStr ""))
  [ (UNIQUE_PROP, vStr cin7OrderId),
    ("hs_order_name",
      vStr ("Cin7 Order " ++ jsString (jsOr o.reference (vStr cin7OrderId)))),
    ("hs_currency_code", vStr "USD"),
    ("hs_subtotal_price", o.productTotal),
    ("hs_shipping_cost", o.freightTotal),
    ("hs_total_price", o.total),
    ("hs_shipping_address_name", shippingName),
    ("hs_shipping_address_street", street),
    ("hs_shipping_address_city", o.deliveryCity),
    ("hs_shipping_address_state", o.deliveryState),
    ("hs_shipping_address_postal_code", o.deliveryPostalCode),
    ("hs_shipping_address_country", o.deliveryCountry),
    ("cin7_company", o.billingCompany) ]

/-- The pagination while-loop of GET (lines 213-238): fetch the current
page from the Cin7 oracle, stop on an empty page, otherwise accumulate
and stop once the incremented page number exceeds maxPages. Returns the
accumulated orders and the number of page fetches performed. -/
def pageLoop (pages : Nat → List Cin7Order) (maxPages : Nat)
    (page : Nat) (acc : List Cin7Order) (fetches : Nat) :
    List Cin7Order × Nat :=
  let orders := pages page
  if orders.isEmpty then (acc, fetches + 1)
  else
    let acc2 := acc ++ orders
    if maxPages < page + 1 then (acc2, fetches + 1)
    else pageLoop pages maxPages (page + 1) acc2 (fetches + 1)
termination_by maxPages - page
decreasing_by
  omega

/-- The fetch phase of GET: pages from 1, empty accumulator. -/
def fetchAllOrders (pages : Nat → List Cin7Order) (maxPages : Nat) :
    List Cin7Order × Nat :=
  pageLoop pages maxPages 1 [] 0

/-- The dedup loop of GET (lines 243-256), with the seen set as an
explicit argument: a record with an empty normalized id increments
skipped; a record whose id was already seen is dropped silently; any
other record is appended to prepared and its id added to seen. Returns
(prepared, skipped). -/
def prepareLoop (seen : List String) :
    List Cin7Order → List Cin7Order × Nat
  | [] => ([], 0)
  | o :: rest =>
    let cin7OrderId := normalizeCin7Id o
    if cin7OrderId = "" then
      let r := prepareLoop seen rest
      (r.1, r.2 + 1)
    else if seen.contains cin7OrderId then prepareLoop seen rest
    else
      let r := prepareLoop (cin7OrderId :: seen) rest
      (o :: r.1, r.2)

/-- The dedup phase of GET starting from an empty seen set. -/
def prepareOrders (allOrders : List Cin7Order) : List Cin7Order × Nat :=
  prepareLoop [] allOrders

/-- Count of later-duplicate records: records with a non-empty normalized
id equal to the id of an earlier record (or of the ambient seen set).
Used to state the size property of the dedup phase. -/
def laterDupCount (seen : List String) : List Cin7Order → Nat
  | [] => 0
  | o :: rest =>
    let cin7OrderId := normalizeCin7Id o
    if cin7OrderId = "" then laterDupCount seen rest
    else if seen.contains cin7OrderId then 1 + laterDupCount seen rest
    else laterDupCount (cin7OrderId :: seen) rest

/-- The destination-side behavior of the write phase for one record,
supplied by the environment oracle: the search call can throw, or return
an existing id (update then succeeds or throws), or return no match
(create then succeeds or throws). -/
inductive WriteOutcome where
  | searchFail : String → WriteOutcome
  | foundUpdateOk : String → WriteOutcome
  | foundUpdateFail : String → String → WriteOutcome
  | notFoundCreateOk : WriteOutcome
  | notFoundCreateFail : String → WriteOutcome
deriving DecidableEq, Repr

/-- The error message a write outcome contributes, none on success. -/
def WriteOutcome.errMsg : WriteOutcome → Option String
  | .searchFail m => some m
  | .foundUpdateFail _ m => some m
  | .notFoundCreateFail m => some m
  | _ => none

/-- Whether the outcome is a successful create. -/
def WriteOutcome.isCreate : WriteOutcome → Bool
  | .notFoundCreateOk => true
  | _ => false

/-- Whether the outcome is a successful update. -/
def WriteOutcome.isUpdate : WriteOutcome → Bool
  | .foundUpdateOk _ => true
  | _ => false

/-- A call issued to the destination (HubSpot) CRM API during the write
phase: the search by unique property, a create, or an update. -/
inductive DestCall where
  | search : String → String → DestCall
  | create : List (String × JsVal) → DestCall
  | update : String → List (String × JsVal) → DestCall
deriving DecidableEq, Repr

/-- The environment of one sync run: the fetched destination property
schema, the Cin7 page oracle, the max-page cap, and the destination write
oracle. -/
structure SyncEnv where
  schema : List String
  pages : Nat → List Cin7Order
  maxPages : Nat
  outcome : Cin7Order → WriteOutcome

/-- The body of the upsert loop for one prepared record (lines 265-316):
build the candidate mapping, filter it against the schema, search by the
unique property, then update or create; any throw is caught and recorded
as an error message. Returns the destination calls issued and the
record's contribution (created, updated, or an error). -/
def processOrder (env : SyncEnv) (o : Cin7Order) :
    List DestCall × WriteOutcome :=
  let cin7OrderId := normalizeCin7Id o
  let properties := pickExistingProps env.schema (candidateProps o)
  match env.outcome o with
  | .searchFail m => ([.search UNIQUE_PROP cin7OrderId], .searchFail m)
  | .foundUpdateOk oid =>
    ([.search UNIQUE_PROP cin7OrderId, .update oid properties],
      .foundUpdateOk oid)
  | .foundUpdateFail oid m =>
    ([.search UNIQUE_PROP cin7OrderId, .update oid properties],
      .foundUpdateFail oid m)
  | .notFoundCreateOk =>
    ([.search UNIQUE_PROP cin7OrderId, .create properties],
      .notFoundCreateOk)
  | .notFoundCreateFail m =>
    ([.search UNIQUE_PROP cin7OrderId, .create properties],
      .notFoundCreateFail m)

/-- The upsert loop over the prepared records: accumulates the created
and updated counters, the error-message list in record order, and the
full destination call trace. -/
def writeLoop (env : SyncEnv) :
    List Cin7Order → Nat × Nat × List String × List DestCall
  | [] => (0, 0, [], [])
  | o :: rest =>
    let step := processOrder env o
    let r := writeLoop env rest
    match (step.2).errMsg with
    | some m => (r.1, r.2.1, m :: r.2.2.1, step.1 ++ r.2.2.2)
    | none =>
      if (step.2).isCreate then
        (r.1 + 1, r.2.1, r.2.2.1, step.1 ++ r.2.2.2)
      else (r.1, r.2.1 + 1, r.2.2.1, step.1 ++ r.2.2.2)

/-- The JSON summary returned by GET, plus the HTTP status. On the fatal
path only ok, status and error are meaningful (the JS object has no count
fields there); the numeric fields are zero in that case. -/
structure SyncResponse where
  ok : Bool
  status : Nat
  cin7Count : Nat := 0
  prepared : Nat := 0
  created : Nat := 0
  updated : Nat := 0
  skipped : Nat := 0
  errorsCount : Nat := 0
  sampleErrors : List String := []
  error : Option String := none
deriving DecidableEq, Repr

/-- The GET sync handler over a run environment: confirm the unique
property exists in the fetched schema (a missing property throws, caught
as a 500 with ok:false), then paginate, dedup, and run the write loop,
returning the summary and the trace of destination search/create/update
calls. -/
def GET (env : SyncEnv) : SyncResponse × List DestCall :=
  if ¬ env.schema.contains UNIQUE_PROP then
    ({ ok := false, status := 500,
       error := some ("Missing HubSpot Order property \"" ++ UNIQUE_PROP ++
         "\". Create it in HubSpot (Orders properties) as single-line text (unique), then redeploy.") },
      [])
  else
    let fetched := fetchAllOrders env.pages env.maxPages
    let allOrders := fetched.1
    let prep := prepareOrders allOrders
    let w := writeLoop env prep.1
    ({ ok := true, status := 200,
       cin7Count := allOrders.length,
       prepared := prep.1.length,
       created := w.1,
       updated := w.2.1,
       skipped := prep.2,
       errorsCount := w.2.2.1.length,
       sampleErrors := w.2.2.1.take 3 },
      w.2.2.2)

end Cin7SyncRoute

/-! Theorems. General helper lemmas first, then one theorem per claim with
its witness or counterexample. -/

/-- Strings with equal character lists are equal. -/
theorem string_data_inj {s t : String} (h : s.data = t.data) : s = t := by
  cases s
  cases t
  exact congrArg String.mk h

/-- Right cancellation for string concatenation. -/
theorem string_append_right_cancel {s t u : String} (h : s ++ u = t ++ u) :
    s = t := by
  have hd := congrArg String.data h
  simp only [String.data_append] at hd
  exact string_data_inj (List.append_cancel_right hd)

/-- Left cancellation for string concatenation. -/
theorem string_append_left_cancel {s t u : String} (h : u ++ s = u ++ t) :
    s = t := by
  have hd := congrArg String.data h
  simp only [String.data_append] at hd
  exact string_data_inj (List.append_cancel_left hd)

/-- A unary-replicated prefix followed by a distinct marker determines the
prefix length and the tail. -/
theorem replicate_marker_inj {a b : Char} (hab : a ≠ b) :
    ∀ (n m : Nat) (l l' : List Char),
      List.replicate n a ++ b :: l = List.replicate m a ++ b :: l' →
      n = m ∧ l = l' := by
  intro n
  induction n with
  | zero =>
    intro m l l' h
    cases m with
    | zero => simpa using h
    | succ m =>
      exfalso
      simp [List.replicate] at h
      exact hab h.1.symm
  | succ n ih =>
    intro m l l' h
    cases m with
    | zero =>
      exfalso
      simp [List.replicate] at h
      exact hab h.1
    | succ m =>
      simp only [List.replicate, List.cons_append, List.cons.injEq] at h
      obtain ⟨hn, hl⟩ := ih m l l' h.2
      exact ⟨by omega, hl⟩

/-- pairEncode is injective in both arguments. -/
theorem pairEncode_inj (s₁ s₂ m₁ m₂ : String)
    (h : pairEncode s₁ m₁ = pairEncode s₂ m₂) : s₁ = s₂ ∧ m₁ = m₂ := by
  have hd := congrArg String.data h
  simp only [pairEncode] at hd
  obtain ⟨hn, hl⟩ := replicate_marker_inj (by decide) _ _ _ _ hd
  obtain ⟨h1, h2⟩ := List.append_inj hl hn
  exact ⟨string_data_inj h1, string_data_inj h2⟩

namespace WebhookRoute

/-- C1: a request whose timestamp header is missing, or non-numeric, or
parses to a time more than five minutes before or after the verifier's
current time, is rejected with status 401 and the text "Invalid
timestamp", for every signature header, secret and HMAC oracle; the
constant-time comparison is never invoked. -/
theorem timestamp_window_rejects (hmac : String → String → String)
    (secret : Option String) (now : Int) (req : WebhookRequest)
    (h : req.timestampHeader = none ∨
      jsNumber (req.timestampHeader.getD "") = none ∨
      ∃ ts, jsNumber (req.timestampHeader.getD "") = some ts ∧
        5 * 60 * 1000 < (now - ts).natAbs) :
    POST hmac secret now req = (.text "Invalid timestamp" 401, false) := by
  have hts : tsInvalid now (jsNumber (req.timestampHeader.getD "")) = true := by
    rcases h with h | h | ⟨ts, hts, hgt⟩
    · rw [h]
      rfl
    · rw [h]
      rfl
    · rw [hts]
      simp only [tsInvalid, Bool.or_eq_true, beq_iff_eq, decide_eq_true_eq]
      omega
  simp [POST, hts]

/-- Witness for the timestamp rejection theorem at a concrete request with
a missing timestamp header. -/
theorem timestamp_window_rejects_witness :
    ({ signature := some "sig", timestampHeader := none, method := "POST",
       requestUri := "/api/hubspot/webhook", rawBody := "{}" } :
        WebhookRequest).timestampHeader = none ∧
    POST (fun _ m => m) (some "sec") 1700000000000
      { signature := some "sig", timestampHeader := none, method := "POST",
        requestUri := "/api/hubspot/webhook", rawBody := "{}" } =
      (.text "Invalid timestamp" 401, false) :=
  ⟨rfl, timestamp_window_rejects _ _ _ _ (Or.inl rfl)⟩

end WebhookRoute

namespace WebhookRoute

/-- C2 counterexample: with the HUBSPOT_CLIENT_SECRET environment variable
unset and a fresh timestamp, the handler responds 500 "Missing
HUBSPOT_CLIENT_SECRET", a status that is neither 200 nor 401, refuting
the claim that no status other than 200 or 401 is possible. -/
theorem only_200_or_401_counterexample :
    (POST (fun _ m => m) none 1700000000000
      { signature := some "sig", timestampHeader := some "1700000000000",
        method := "POST", requestUri := "/api/hubspot/webhook",
        rawBody := "{}" }).1 =
      .text "Missing HUBSPOT_CLIENT_SECRET" 500 ∧
    (POST (fun _ m => m) none 1700000000000
      { signature := some "sig", timestampHeader := some "1700000000000",
        method := "POST", requestUri := "/api/hubspot/webhook",
        rawBody := "{}" }).1.status ≠ 200 ∧
    (POST (fun _ m => m) none 1700000000000
      { signature := some "sig", timestampHeader := some "1700000000000",
        method := "POST", requestUri := "/api/hubspot/webhook",
        rawBody := "{}" }).1.status ≠ 401 := by
  refine ⟨by decide, by decide, by decide⟩

/-- C2 amended: when the secret is configured, the handler's status is
always 200 or 401, and it returns the JSON success response exactly when
both the timestamp check and the signature check pass; when the secret
environment variable is unset and the timestamp is valid it returns 500. -/
theorem response_status_partition (hmac : String → String → String)
    (sec : String) (now : Int) (req : WebhookRequest) :
    ((POST hmac (some sec) now req).1.status = 200 ∨
      (POST hmac (some sec) now req).1.status = 401) ∧
    ((POST hmac (some sec) now req).1 = .jsonOk ↔
      tsInvalid now (jsNumber (req.timestampHeader.getD "")) = false ∧
      (sigCheck (computedSignature hmac sec req.method req.requestUri
          req.rawBody (req.timestampHeader.getD ""))
        (req.signature.getD "")).1 = true) := by
  by_cases hts : tsInvalid now (jsNumber (req.timestampHeader.getD "")) = true
  · constructor
    · right
      simp [POST, hts, HttpResponse.status]
    · simp [POST, hts]
  · have hts' : tsInvalid now (jsNumber (req.timestampHeader.getD "")) = false :=
      Bool.not_eq_true _ ▸ eq_false_of_ne_true hts
    by_cases hsig : (sigCheck (computedSignature hmac sec req.method
        req.requestUri req.rawBody (req.timestampHeader.getD ""))
        (req.signature.getD "")).1 = true
    · constructor
      · left
        simp [POST, hts', hsig, HttpResponse.status]
      · simp [POST, hts', hsig]
    · have hsig' := eq_false_of_ne_true hsig
      constructor
      · right
        simp [POST, hts', hsig', HttpResponse.status]
      · simp [POST, hts', hsig']

/-- C3: whenever the supplied signature header's UTF-8 byte length differs
from that of the computed base64 HMAC signature, verification fails with
401 "Invalid signature" and the constant-time content comparison
(crypto.timingSafeEqual) is never invoked, as recorded by the false flag. -/
theorem length_mismatch_fails_without_compare (hmac : String → String → String)
    (sec : String) (now : Int) (req : WebhookRequest)
    (hts : tsInvalid now (jsNumber (req.timestampHeader.getD "")) = false)
    (hlen : (computedSignature hmac sec req.method req.requestUri req.rawBody
        (req.timestampHeader.getD "")).utf8ByteSize ≠
      (req.signature.getD "").utf8ByteSize) :
    POST hmac (some sec) now req = (.text "Invalid signature" 401, false) := by
  have hchk : sigCheck (computedSignature hmac sec req.method req.requestUri
      req.rawBody (req.timestampHeader.getD "")) (req.signature.getD "") =
      (false, false) := by
    simp [sigCheck, hlen]
  simp [POST, hts, hchk]

/-- Witness for the length-mismatch theorem: a 4-byte computed signature
against a 3-byte supplied header that is a prefix of it. -/
theorem length_mismatch_fails_without_compare_witness :
    tsInvalid 1700000000000 (jsNumber (Option.getD (some "1700000000000") ""))
      = false ∧
    (computedSignature (fun _ _ => "AAAA") "sec" "POST" "/api/hubspot/webhook"
        "{}" (Option.getD (some "1700000000000") "")).utf8ByteSize ≠
      (Option.getD (some "AAA") "").utf8ByteSize ∧
    POST (fun _ _ => "AAAA") (some "sec") 1700000000000
      { signature := some "AAA", timestampHeader := some "1700000000000",
        method := "POST", requestUri := "/api/hubspot/webhook",
        rawBody := "{}" } =
      (.text "Invalid signature" 401, false) :=
  ⟨by decide, by decide,
    length_mismatch_fails_without_compare _ _ _ _ (by decide) (by decide)⟩

end WebhookRoute

namespace WebhookRoute

/-- C4: the computed signature is a deterministic function of secret,
method, decoded request URI, raw body and raw timestamp string, the
signing string being exactly their concatenation in that order; and for
any injective HMAC oracle (the code's HMAC-SHA256 is modelled as an
oracle, assumed collision-free on the inputs in play), changing any one
of the five inputs while holding the other four fixed changes the
computed signature. -/
theorem signature_deterministic_and_sensitive (hmac : String → String → String)
    (hinj : ∀ s₁ s₂ m₁ m₂, hmac s₁ m₁ = hmac s₂ m₂ → s₁ = s₂ ∧ m₁ = m₂)
    (secret method requestUri rawBody timestamp : String) :
    (computedSignature hmac secret method requestUri rawBody timestamp =
      hmac secret (method ++ requestUri ++ rawBody ++ timestamp)) ∧
    (∀ s, s ≠ secret →
      computedSignature hmac s method requestUri rawBody timestamp ≠
        computedSignature hmac secret method requestUri rawBody timestamp) ∧
    (∀ m, m ≠ method →
      computedSignature hmac secret m requestUri rawBody timestamp ≠
        computedSignature hmac secret method requestUri rawBody timestamp) ∧
    (∀ u, u ≠ requestUri →
      computedSignature hmac secret method u rawBody timestamp ≠
        computedSignature hmac secret method requestUri rawBody timestamp) ∧
    (∀ b, b ≠ rawBody →
      computedSignature hmac secret method requestUri b timestamp ≠
        computedSignature hmac secret method requestUri rawBody timestamp) ∧
    (∀ t, t ≠ timestamp →
      computedSignature hmac secret method requestUri rawBody t ≠
        computedSignature hmac secret method requestUri rawBody timestamp) := by
  refine ⟨rfl, ?_, ?_, ?_, ?_, ?_⟩
  · intro s hs heq
    exact hs (hinj _ _ _ _ heq).1
  · intro m hm heq
    have h2 := (hinj _ _ _ _ heq).2
    simp only [sourceString] at h2
    exact hm (string_append_right_cancel (string_append_right_cancel
      (string_append_right_cancel h2)))
  · intro u hu heq
    have h2 := (hinj _ _ _ _ heq).2
    simp only [sourceString] at h2
    have h3 := string_append_right_cancel (string_append_right_cancel h2)
    exact hu (string_append_left_cancel h3)
  · intro b hb heq
    have h2 := (hinj _ _ _ _ heq).2
    simp only [sourceString] at h2
    have h3 := string_append_right_cancel h2
    exact hb (string_append_left_cancel h3)
  · intro t ht heq
    have h2 := (hinj _ _ _ _ heq).2
    simp only [sourceString] at h2
    exact ht (string_append_left_cancel h2)

/-- Witness for the determinism and sensitivity theorem, instantiating the
HMAC oracle with the provably injective pairEncode at concrete inputs. -/
theorem signature_deterministic_and_sensitive_witness :
    (∀ s₁ s₂ m₁ m₂, pairEncode s₁ m₁ = pairEncode s₂ m₂ →
      s₁ = s₂ ∧ m₁ = m₂) ∧
    ((computedSignature pairEncode "sec" "POST" "/api/hubspot/webhook" "{}"
        "1700000000000" =
      pairEncode "sec"
        ("POST" ++ "/api/hubspot/webhook" ++ "{}" ++ "1700000000000")) ∧
    (∀ s, s ≠ "sec" →
      computedSignature pairEncode s "POST" "/api/hubspot/webhook" "{}"
          "1700000000000" ≠
        computedSignature pairEncode "sec" "POST" "/api/hubspot/webhook" "{}"
          "1700000000000") ∧
    (∀ m, m ≠ "POST" →
      computedSignature pairEncode "sec" m "/api/hubspot/webhook" "{}"
          "1700000000000" ≠
        computedSignature pairEncode "sec" "POST" "/api/hubspot/webhook" "{}"
          "1700000000000") ∧
    (∀ u, u ≠ "/api/hubspot/webhook" →
      computedSignature pairEncode "sec" "POST" u "{}" "1700000000000" ≠
        computedSignature pairEncode "sec" "POST" "/api/hubspot/webhook" "{}"
          "1700000000000") ∧
    (∀ b, b ≠ "{}" →
      computedSignature pairEncode "sec" "POST" "/api/hubspot/webhook" b
          "1700000000000" ≠
        computedSignature pairEncode "sec" "POST" "/api/hubspot/webhook" "{}"
          "1700000000000") ∧
    (∀ t, t ≠ "1700000000000" →
      computedSignature pairEncode "sec" "POST" "/api/hubspot/webhook" "{}"
          t ≠
        computedSignature pairEncode "sec" "POST" "/api/hubspot/webhook" "{}"
          "1700000000000")) :=
  ⟨pairEncode_inj,
    signature_deterministic_and_sensitive pairEncode pairEncode_inj
      "sec" "POST" "/api/hubspot/webhook" "{}" "1700000000000"⟩

end WebhookRoute

namespace Cin7SyncRoute

/-- C7: the filtered write payload contains the entry (k, v) exactly when
the candidate mapping contains it, v is not undefined, null or the empty
string, and k belongs to the fetched destination schema name set; the
key-distinctness hypothesis states that the candidate association list is
a genuine object mapping. -/
theorem pickExistingProps_mem_iff (allNamesSet : List String)
    (candidate : List (String × JsVal))
    (hkeys : (candidate.map Prod.fst).Nodup) (k : String) (v : JsVal) :
    (k, v) ∈ pickExistingProps allNamesSet candidate ↔
      ((k, v) ∈ candidate ∧ v.isEmptyish = false ∧ k ∈ allNamesSet) := by
  simp only [pickExistingProps, List.mem_filter, Bool.and_eq_true,
    Bool.not_eq_true', decide_eq_true_eq, List.elem_iff]

/-- Witness for the payload filter theorem on a concrete mapping: a key
absent from the schema is dropped even with a non-empty value. -/
theorem pickExistingProps_mem_iff_witness :
    ((([("hs_total_price", JsVal.vNum 5), ("cin7_company", JsVal.vStr "x")] :
        List (String × JsVal)).map Prod.fst).Nodup) ∧
    (("cin7_company", JsVal.vStr "x") ∈
        pickExistingProps ["hs_total_price"]
          [("hs_total_price", JsVal.vNum 5), ("cin7_company", JsVal.vStr "x")] ↔
      (("cin7_company", JsVal.vStr "x") ∈
          ([("hs_total_price", JsVal.vNum 5),
            ("cin7_company", JsVal.vStr "x")] : List (String × JsVal)) ∧
        (JsVal.vStr "x").isEmptyish = false ∧
        "cin7_company" ∈ ["hs_total_price"])) :=
  ⟨by decide,
    pickExistingProps_mem_iff ["hs_total_price"]
      [("hs_total_price", JsVal.vNum 5), ("cin7_company", JsVal.vStr "x")]
      (by decide) "cin7_company" (JsVal.vStr "x")⟩

end Cin7SyncRoute

namespace Cin7SyncRoute

/-- One unfolding of the pagination loop. -/
theorem pageLoop_unfold (pages : Nat → List Cin7Order) (maxPages page : Nat)
    (acc : List Cin7Order) (f : Nat) :
    pageLoop pages maxPages page acc f =
      if (pages page).isEmpty then (acc, f + 1)
      else if maxPages < page + 1 then (acc ++ pages page, f + 1)
      else pageLoop pages maxPages (page + 1) (acc ++ pages page) (f + 1) := by
  rw [pageLoop.eq_def]

/-- When every page from the current one on is non-empty, the loop performs
one fetch per remaining page up to the cap, plus the final capped fetch. -/
theorem pageLoop_fetches_all_nonempty (pages : Nat → List Cin7Order) :
    ∀ (d maxPages page : Nat) (acc : List Cin7Order) (f : Nat),
      maxPages - page ≤ d → (∀ p, page ≤ p → pages p ≠ []) →
      (pageLoop pages maxPages page acc f).2 = f + (maxPages - page) + 1 := by
  intro d
  induction d with
  | zero =>
    intro maxPages page acc f hd h
    rw [pageLoop_unfold]
    have hp : (pages page).isEmpty = false :=
      List.isEmpty_eq_false.2 (h page (Nat.le_refl page))
    have hcap : maxPages < page + 1 := by omega
    simp [hp, hcap]
    omega
  | succ d ih =>
    intro maxPages page acc f hd h
    rw [pageLoop_unfold]
    have hp : (pages page).isEmpty = false :=
      List.isEmpty_eq_false.2 (h page (Nat.le_refl page))
    by_cases hcap : maxPages < page + 1
    · simp [hp, hcap]
      omega
    · simp only [hp, Bool.false_eq_true, if_false, hcap, if_neg]
      rw [ih maxPages (page + 1) (acc ++ pages page) (f + 1) (by omega)
        (fun p hp2 => h p (by omega))]
      omega

/-- When page k is the first empty page at or after the current one, the
loop performs fetches up to k or up to the cap, whichever is first. -/
theorem pageLoop_fetches_first_empty (pages : Nat → List Cin7Order) :
    ∀ (d maxPages page : Nat) (acc : List Cin7Order) (f k : Nat),
      maxPages - page ≤ d → page ≤ k → pages k = [] →
      (∀ p, page ≤ p → p < k → pages p ≠ []) →
      (pageLoop pages maxPages page acc f).2 =
        f + min (k - page) (maxPages - page) + 1 := by
  intro d
  induction d with
  | zero =>
    intro maxPages page acc f k hd hpk hk hbefore
    rw [pageLoop_unfold]
    by_cases hp : (pages page).isEmpty
    · simp [hp]
      omega
    · have hcap : maxPages < page + 1 := by omega
      simp only [hp, Bool.false_eq_true, if_false, hcap, if_pos]
      simp
      omega
  | succ d ih =>
    intro maxPages page acc f k hd hpk hk hbefore
    rw [pageLoop_unfold]
    by_cases hp : (pages page).isEmpty
    · have hpage : page = k := by
        rcases Nat.lt_or_ge page k with hlt | hge
        · exact absurd (List.isEmpty_eq_false.2
            (hbefore page (Nat.le_refl page) hlt)) (by simp [hp])
        · omega
      simp [hp]
      omega
    · have hplt : page < k := by
        rcases Nat.lt_or_ge page k with hlt | hge
        · exact hlt
        · have : page = k := by omega
          rw [this, hk] at hp
          simp at hp
      by_cases hcap : maxPages < page + 1
      · simp [hp, hcap]
        omega
      · simp only [hp, Bool.false_eq_true, if_false, hcap, if_neg]
        rw [ih maxPages (page + 1) (acc ++ pages page) (f + 1) k (by omega)
          (by omega) hk (fun p h1 h2 => hbefore p (by omega) h2)]
        omega

/-- C8 counterexample: with the max-page cap configured to 0 and an
endpoint that always returns a record, the loop still performs one fetch,
not zero, because the cap is only checked after the first page fetch. -/
theorem pagination_maxpages_zero_counterexample :
    (fetchAllOrders (fun _ => [{ id := JsVal.vStr "A" }]) 0).2 = 1 ∧
    (1 : Nat) ≠ 0 := by
  constructor
  · rw [fetchAllOrders, pageLoop_unfold]
    simp
  · decide

/-- C8 amended: the pagination loop always terminates; if every page is
non-empty it performs exactly max maxPages 1 fetches (exactly maxPages
when maxPages is at least 1), and if page k is the first empty page it
stops there, performing min k (max maxPages 1) fetches. -/
theorem pagination_bounded_fetches (pages : Nat → List Cin7Order)
    (maxPages : Nat) :
    ((∀ p, 1 ≤ p → pages p ≠ []) →
      (fetchAllOrders pages maxPages).2 = max maxPages 1) ∧
    (∀ k, 1 ≤ k → pages k = [] →
      (∀ p, 1 ≤ p → p < k → pages p ≠ []) →
      (fetchAllOrders pages maxPages).2 = min k (max maxPages 1)) := by
  constructor
  · intro h
    rw [fetchAllOrders,
      pageLoop_fetches_all_nonempty pages (maxPages - 1) maxPages 1 [] 0
        (by omega) h]
    omega
  · intro k hk1 hk hbefore
    rw [fetchAllOrders,
      pageLoop_fetches_first_empty pages (maxPages - 1) maxPages 1 [] 0 k
        (by omega) hk1 hk hbefore]
    omega

/-- Witness for the pagination fetch-count theorem: an always-full endpoint
with cap 3 yields 3 fetches, and an endpoint whose page 2 is empty with
cap 5 yields 2 fetches. -/
theorem pagination_bounded_fetches_witness :
    ((∀ p, 1 ≤ p →
        (fun _ => [({ id := JsVal.vStr "A" } : Cin7Order)]) p ≠ []) ∧
      (fetchAllOrders (fun _ => [({ id := JsVal.vStr "A" } : Cin7Order)])
        3).2 = max 3 1) ∧
    ((1 : Nat) ≤ 2 ∧
      (fun p => if p ≤ 1 then [({ id := JsVal.vStr "A" } : Cin7Order)]
        else []) 2 = [] ∧
      (∀ p, 1 ≤ p → p < 2 →
        (fun p => if p ≤ 1 then [({ id := JsVal.vStr "A" } : Cin7Order)]
          else []) p ≠ []) ∧
      (fetchAllOrders (fun p => if p ≤ 1 then
        [({ id := JsVal.vStr "A" } : Cin7Order)] else []) 5).2 =
        min 2 (max 5 1)) := by
  have h1 : ∀ p, 1 ≤ p →
      (fun _ => [({ id := JsVal.vStr "A" } : Cin7Order)]) p ≠ [] :=
    fun p _ => by simp
  have hb : ∀ p, 1 ≤ p → p < 2 →
      (fun p => if p ≤ 1 then [({ id := JsVal.vStr "A" } : Cin7Order)]
        else []) p ≠ [] := by
    intro p hp1 hp2
    have hp : p = 1 := by omega
    subst hp
    decide
  exact ⟨⟨h1, (pagination_bounded_fetches _ 3).1 h1⟩,
    by decide, by decide, hb,
    (pagination_bounded_fetches _ 5).2 2 (by decide) (by decide) hb⟩

end Cin7SyncRoute

namespace Cin7SyncRoute

/-- The skipped counter equals the number of records with an empty
normalized id, independently of the seen set: duplicates are dropped
without touching it. -/
theorem prepareLoop_skipped (seen : List String) (l : List Cin7Order) :
    (prepareLoop seen l).2 = l.countP (fun o => normalizeCin7Id o == "") := by
  induction l generalizing seen with
  | nil => rfl
  | cons a rest ih =>
    by_cases h0 : normalizeCin7Id a = ""
    · simp [prepareLoop, h0, List.countP_cons, ih seen]
    · by_cases hs : normalizeCin7Id a ∈ seen
      · simp [prepareLoop, h0, hs, List.countP_cons, ih seen]
      · simp [prepareLoop, h0, hs, List.countP_cons,
          ih (normalizeCin7Id a :: seen)]

/-- Every record lands in exactly one bucket: prepared, later-duplicate,
or skipped. -/
theorem prepareLoop_size (seen : List String) (l : List Cin7Order) :
    (prepareLoop seen l).1.length + laterDupCount seen l +
      (prepareLoop seen l).2 = l.length := by
  induction l generalizing seen with
  | nil => rfl
  | cons a rest ih =>
    by_cases h0 : normalizeCin7Id a = ""
    · have h := ih seen
      simp only [prepareLoop, laterDupCount, h0, if_pos, List.length_cons]
      omega
    · by_cases hs : normalizeCin7Id a ∈ seen
      · have h := ih seen
        simp [prepareLoop, laterDupCount, h0, hs]
        omega
      · have h := ih (normalizeCin7Id a :: seen)
        simp [prepareLoop, laterDupCount, h0, hs]
        omega

/-- Every prepared record has a non-empty id that is outside the ambient
seen set. -/
theorem prepareLoop_mem_keys (seen : List String) (l : List Cin7Order) :
    ∀ o ∈ (prepareLoop seen l).1,
      normalizeCin7Id o ∉ seen ∧ normalizeCin7Id o ≠ "" := by
  induction l generalizing seen with
  | nil =>
    intro o ho
    simp [prepareLoop] at ho
  | cons a rest ih =>
    intro o ho
    by_cases h0 : normalizeCin7Id a = ""
    · simp only [prepareLoop, h0, if_pos] at ho
      exact ih seen o ho
    · by_cases hs : normalizeCin7Id a ∈ seen
      · simp only [prepareLoop, h0, if_neg, not_false_iff] at ho
        rw [if_pos (by simpa using hs)] at ho
        exact ih seen o ho
      · simp only [prepareLoop, h0, if_neg, not_false_iff] at ho
        rw [if_neg (by simpa using hs)] at ho
        simp only [List.mem_cons] at ho
        rcases ho with rfl | ho2
        · exact ⟨hs, h0⟩
        · have h3 := ih (normalizeCin7Id a :: seen) o ho2
          refine ⟨fun hmem => h3.1 (List.mem_cons_of_mem _ hmem), h3.2⟩

end Cin7SyncRoute

namespace Cin7SyncRoute

/-- The prepared list holds at most one record per normalized id. -/
theorem prepareLoop_keys_nodup (seen : List String) (l : List Cin7Order) :
    ((prepareLoop seen l).1.map normalizeCin7Id).Nodup := by
  induction l generalizing seen with
  | nil => simp [prepareLoop]
  | cons a rest ih =>
    by_cases h0 : normalizeCin7Id a = ""
    · simp only [prepareLoop, h0, if_pos]
      exact ih seen
    · by_cases hs : normalizeCin7Id a ∈ seen
      · simp only [prepareLoop, h0, if_neg, not_false_iff]
        rw [if_pos (by simpa using hs)]
        exact ih seen
      · simp only [prepareLoop, h0, if_neg, not_false_iff]
        rw [if_neg (by simpa using hs)]
        simp only [List.map_cons, List.nodup_cons]
        constructor
        · intro hmem
          rcases List.mem_map.1 hmem with ⟨o, ho, hkey⟩
          have h3 := prepareLoop_mem_keys (normalizeCin7Id a :: seen) rest o ho
          exact h3.1 (by rw [hkey]; exact List.mem_cons_self _ _)
        · exact ih (normalizeCin7Id a :: seen)

/-- The prepared list is a sublist of the fetched list: records are kept
in their original order. -/
theorem prepareLoop_sublist (seen : List String) (l : List Cin7Order) :
    (prepareLoop seen l).1.Sublist l := by
  induction l generalizing seen with
  | nil => simp [prepareLoop]
  | cons a rest ih =>
    by_cases h0 : normalizeCin7Id a = ""
    · simp only [prepareLoop, h0, if_pos]
      exact (ih seen).cons a
    · by_cases hs : normalizeCin7Id a ∈ seen
      · simp only [prepareLoop, h0, if_neg, not_false_iff]
        rw [if_pos (by simpa using hs)]
        exact (ih seen).cons a
      · simp only [prepareLoop, h0, if_neg, not_false_iff]
        rw [if_neg (by simpa using hs)]
        exact (ih (normalizeCin7Id a :: seen)).cons₂ a

/-- Each kept record is the first record of the list bearing its
normalized id. -/
theorem prepareLoop_first_kept (seen : List String) (l : List Cin7Order) :
    ∀ o ∈ (prepareLoop seen l).1,
      l.find? (fun o2 => normalizeCin7Id o2 == normalizeCin7Id o) = some o := by
  induction l generalizing seen with
  | nil =>
    intro o ho
    simp [prepareLoop] at ho
  | cons a rest ih =>
    intro o ho
    by_cases h0 : normalizeCin7Id a = ""
    · simp only [prepareLoop, h0, if_pos] at ho
      have hkey := (prepareLoop_mem_keys seen rest o ho).2
      have hne : (normalizeCin7Id a == normalizeCin7Id o) = false := by
        rw [h0]
        exact beq_eq_false_iff_ne.2 (fun h => hkey h.symm)
      rw [List.find?_cons_of_neg _ (by simp [hne]), ih seen o ho]
    · by_cases hs : normalizeCin7Id a ∈ seen
      · simp only [prepareLoop, h0, if_neg, not_false_iff] at ho
        rw [if_pos (by simpa using hs)] at ho
        have hkey := (prepareLoop_mem_keys seen rest o ho).1
        have hne : (normalizeCin7Id a == normalizeCin7Id o) = false := by
          refine beq_eq_false_iff_ne.2 (fun h => hkey ?_)
          rw [← h]
          exact hs
        rw [List.find?_cons_of_neg _ (by simp [hne]), ih seen o ho]
      · simp only [prepareLoop, h0, if_neg, not_false_iff] at ho
        rw [if_neg (by simpa using hs)] at ho
        simp only [List.mem_cons] at ho
        rcases ho with rfl | ho2
        · rw [List.find?_cons_of_pos _ (by simp)]
        · have hkey :=
            (prepareLoop_mem_keys (normalizeCin7Id a :: seen) rest o ho2).1
          have hne : (normalizeCin7Id a == normalizeCin7Id o) = false := by
            refine beq_eq_false_iff_ne.2 (fun h => hkey ?_)
            rw [← h]
            exact List.mem_cons_self _ _
          rw [List.find?_cons_of_neg _ (by simp [hne]),
            ih (normalizeCin7Id a :: seen) o ho2]

/-- Every record with a non-empty id that is not already in the seen set
is represented in the prepared list by a record with the same id. -/
theorem prepareLoop_covers (seen : List String) (l : List Cin7Order) :
    ∀ o ∈ l, normalizeCin7Id o ≠ "" → normalizeCin7Id o ∉ seen →
      ∃ o2 ∈ (prepareLoop seen l).1,
        normalizeCin7Id o2 = normalizeCin7Id o := by
  induction l generalizing seen with
  | nil =>
    intro o ho
    simp at ho
  | cons a rest ih =>
    intro o ho hkey hseen
    by_cases h0 : normalizeCin7Id a = ""
    · simp only [prepareLoop, h0, if_pos]
      rcases List.mem_cons.1 ho with rfl | ho2
      · exact absurd h0 hkey
      · exact ih seen o ho2 hkey hseen
    · by_cases hs : normalizeCin7Id a ∈ seen
      · simp only [prepareLoop, h0, if_neg, not_false_iff]
        rw [if_pos (by simpa using hs)]
        rcases List.mem_cons.1 ho with rfl | ho2
        · exact absurd hs hseen
        · exact ih seen o ho2 hkey hseen
      · simp only [prepareLoop, h0, if_neg, not_false_iff]
        rw [if_neg (by simpa using hs)]
        by_cases heq : normalizeCin7Id o = normalizeCin7Id a
        · exact ⟨a, List.mem_cons_self _ _, heq.symm⟩
        · rcases List.mem_cons.1 ho with rfl | ho2
          · exact absurd rfl heq
          · rcases ih (normalizeCin7Id a :: seen) o ho2 hkey
              (by simp [heq, hseen]) with ⟨o2, ho2m, ho2k⟩
            exact ⟨o2, List.mem_cons_of_mem _ ho2m, ho2k⟩

end Cin7SyncRoute

namespace Cin7SyncRoute

/-- C6: deduplication of the fetched list keeps exactly one record per
distinct non-empty normalized id (first occurrence, original order, so the
prepared length is N minus later-duplicates minus id-less records), counts
exactly the id-less records in skipped (later duplicates are dropped
without touching the counter), and covers every id that occurs. -/
theorem dedup_characterization (allOrders : List Cin7Order) :
    (prepareOrders allOrders).2 =
      allOrders.countP (fun o => normalizeCin7Id o == "") ∧
    (prepareOrders allOrders).1.length + laterDupCount [] allOrders +
      (prepareOrders allOrders).2 = allOrders.length ∧
    ((prepareOrders allOrders).1.map normalizeCin7Id).Nodup ∧
    (prepareOrders allOrders).1.Sublist allOrders ∧
    (∀ o ∈ (prepareOrders allOrders).1, normalizeCin7Id o ≠ "" ∧
      allOrders.find? (fun o2 => normalizeCin7Id o2 == normalizeCin7Id o) =
        some o) ∧
    (∀ o ∈ allOrders, normalizeCin7Id o ≠ "" →
      ∃ o2 ∈ (prepareOrders allOrders).1,
        normalizeCin7Id o2 = normalizeCin7Id o) := by
  refine ⟨prepareLoop_skipped [] allOrders, prepareLoop_size [] allOrders,
    prepareLoop_keys_nodup [] allOrders, prepareLoop_sublist [] allOrders,
    ?_, ?_⟩
  · intro o ho
    exact ⟨(prepareLoop_mem_keys [] allOrders o ho).2,
      prepareLoop_first_kept [] allOrders o ho⟩
  · intro o ho hkey
    exact prepareLoop_covers [] allOrders o ho hkey (by simp)

/-- Witness for the dedup characterization on a concrete three-record
list: one record with id X, a later duplicate carrying the same id in its
reference field, and a record with no extractable id. -/
theorem dedup_characterization_witness :
    (prepareOrders [{ id := JsVal.vStr "X" }, { reference := JsVal.vStr "X" },
      ({} : Cin7Order)]).2 =
      ([{ id := JsVal.vStr "X" }, { reference := JsVal.vStr "X" },
        ({} : Cin7Order)] : List Cin7Order).countP
        (fun o => normalizeCin7Id o == "") ∧
    (prepareOrders [{ id := JsVal.vStr "X" }, { reference := JsVal.vStr "X" },
      ({} : Cin7Order)]).1.length +
      laterDupCount [] [{ id := JsVal.vStr "X" },
        { reference := JsVal.vStr "X" }, ({} : Cin7Order)] +
      (prepareOrders [{ id := JsVal.vStr "X" },
        { reference := JsVal.vStr "X" }, ({} : Cin7Order)]).2 =
      ([{ id := JsVal.vStr "X" }, { reference := JsVal.vStr "X" },
        ({} : Cin7Order)] : List Cin7Order).length :=
  ⟨(dedup_characterization _).1, (dedup_characterization _).2.1⟩

end Cin7SyncRoute

namespace Cin7SyncRoute

/-- The per-record result of processOrder is exactly the environment's
write outcome for that record. -/
theorem processOrder_outcome (env : SyncEnv) (o : Cin7Order) :
    (processOrder env o).2 = env.outcome o := by
  cases h : env.outcome o <;> simp [processOrder, h]

/-- Closed form of the write loop: created and updated count the
successful create and update outcomes, the error list collects the
failure messages in record order, and the trace is the concatenation of
each record's destination calls. -/
theorem writeLoop_characterization (env : SyncEnv) (l : List Cin7Order) :
    writeLoop env l =
      (l.countP (fun o => (env.outcome o).isCreate),
       l.countP (fun o => (env.outcome o).isUpdate),
       l.filterMap (fun o => (env.outcome o).errMsg),
       l.bind (fun o => (processOrder env o).1)) := by
  induction l with
  | nil => rfl
  | cons a rest ih =>
    cases h : env.outcome a <;>
      simp [writeLoop, processOrder, h, ih, List.countP_cons,
        List.filterMap_cons, WriteOutcome.errMsg, WriteOutcome.isCreate,
        WriteOutcome.isUpdate]

/-- Each record contributes to exactly one of the three tallies. -/
theorem writeLoop_partition (env : SyncEnv) (l : List Cin7Order) :
    l.countP (fun o => (env.outcome o).isCreate) +
      l.countP (fun o => (env.outcome o).isUpdate) +
      (l.filterMap (fun o => (env.outcome o).errMsg)).length = l.length := by
  induction l with
  | nil => rfl
  | cons a rest ih =>
    cases h : env.outcome a <;>
      simp [List.countP_cons, List.filterMap_cons, h, WriteOutcome.isCreate,
        WriteOutcome.isUpdate, WriteOutcome.errMsg] at ih ⊢ <;>
      omega

/-- C5: when the unique identifier property is absent from the fetched
destination schema, the run aborts with status 500 and ok:false carrying
an error message, and the destination call trace is empty, so no search,
create or update is ever issued; contrapositively, any run whose trace
holds a destination write fetched a schema containing the property. -/
theorem missing_unique_prop_aborts (env : SyncEnv)
    (h : env.schema.contains UNIQUE_PROP = false) :
    (GET env).1.status = 500 ∧ (GET env).1.ok = false ∧
    (GET env).1.error.isSome = true ∧ (GET env).2 = [] := by
  have h2 : UNIQUE_PROP ∉ env.schema := by simpa using h
  simp [GET, h2]

/-- Witness for the missing-unique-property theorem on a schema lacking
cin7_order_id. -/
theorem missing_unique_prop_aborts_witness :
    (["hs_total_price"] : List String).contains UNIQUE_PROP = false ∧
    ((GET (SyncEnv.mk ["hs_total_price"] (fun _ => []) 1
        (fun _ => .notFoundCreateOk))).1.status = 500 ∧
      (GET (SyncEnv.mk ["hs_total_price"] (fun _ => []) 1
        (fun _ => .notFoundCreateOk))).1.ok = false ∧
      (GET (SyncEnv.mk ["hs_total_price"] (fun _ => []) 1
        (fun _ => .notFoundCreateOk))).1.error.isSome = true ∧
      (GET (SyncEnv.mk ["hs_total_price"] (fun _ => []) 1
        (fun _ => .notFoundCreateOk))).2 = []) :=
  ⟨by decide, missing_unique_prop_aborts _ (by decide)⟩

end Cin7SyncRoute

namespace Cin7SyncRoute

/-- Closed form of GET on a run that passes the schema check. -/
theorem GET_success (env : SyncEnv)
    (h : env.schema.contains UNIQUE_PROP = true) :
    GET env =
      ({ ok := true, status := 200,
         cin7Count := (fetchAllOrders env.pages env.maxPages).1.length,
         prepared :=
           (prepareOrders (fetchAllOrders env.pages env.maxPages).1).1.length,
         created := List.countP (fun o => (env.outcome o).isCreate)
           (prepareOrders (fetchAllOrders env.pages env.maxPages).1).1,
         updated := List.countP (fun o => (env.outcome o).isUpdate)
           (prepareOrders (fetchAllOrders env.pages env.maxPages).1).1,
         skipped := (prepareOrders (fetchAllOrders env.pages env.maxPages).1).2,
         errorsCount :=
           ((prepareOrders (fetchAllOrders env.pages env.maxPages).1).1.filterMap
             (fun o => (env.outcome o).errMsg)).length,
         sampleErrors :=
           ((prepareOrders (fetchAllOrders env.pages env.maxPages).1).1.filterMap
             (fun o => (env.outcome o).errMsg)).take 3,
         error := none },
       (prepareOrders (fetchAllOrders env.pages env.maxPages).1).1.bind
         (fun o => (processOrder env o).1)) := by
  simp only [GET]
  rw [if_neg (not_not_intro h), writeLoop_characterization]

/-- C9: on a run that passes the schema check, per-record write failures
never abort the run: the response is 200 with ok:true, errorsCount counts
exactly the failing prepared records, sampleErrors is the first three of
their messages in record order, every prepared record is tallied
(created + updated + errorsCount = prepared), and the call trace strings
together the destination calls of every prepared record. -/
theorem record_failures_do_not_abort (env : SyncEnv)
    (h : env.schema.contains UNIQUE_PROP = true) :
    (GET env).1.ok = true ∧ (GET env).1.status = 200 ∧
    (GET env).1.errorsCount =
      ((prepareOrders (fetchAllOrders env.pages env.maxPages).1).1.filterMap
        (fun o => (env.outcome o).errMsg)).length ∧
    (GET env).1.sampleErrors =
      ((prepareOrders (fetchAllOrders env.pages env.maxPages).1).1.filterMap
        (fun o => (env.outcome o).errMsg)).take 3 ∧
    (GET env).1.created + (GET env).1.updated + (GET env).1.errorsCount =
      (GET env).1.prepared ∧
    (GET env).2 =
      (prepareOrders (fetchAllOrders env.pages env.maxPages).1).1.bind
        (fun o => (processOrder env o).1) := by
  have hpart := writeLoop_partition env
    (prepareOrders (fetchAllOrders env.pages env.maxPages).1).1
  simp only [GET_success env h]
  refine ⟨?_, ?_, ?_, ?_, ?_, ?_⟩ <;> first
    | trivial
    | omega

/-- Witness for the failure-collection theorem: a page of two records, the
first of which fails its create call. -/
theorem record_failures_do_not_abort_witness :
    (["cin7_order_id"] : List String).contains UNIQUE_PROP = true ∧
    (GET (SyncEnv.mk ["cin7_order_id"]
      (fun p => if p = 1 then [({ id := JsVal.vStr "A" } : Cin7Order),
        { id := JsVal.vStr "B" }] else []) 5
      (fun o => if o = { id := JsVal.vStr "A" } then
        .notFoundCreateFail "HubSpot error 400" else
        .notFoundCreateOk))).1.ok = true ∧
    (GET (SyncEnv.mk ["cin7_order_id"]
      (fun p => if p = 1 then [({ id := JsVal.vStr "A" } : Cin7Order),
        { id := JsVal.vStr "B" }] else []) 5
      (fun o => if o = { id := JsVal.vStr "A" } then
        .notFoundCreateFail "HubSpot error 400" else
        .notFoundCreateOk))).1.status = 200 :=
  ⟨by decide, (record_failures_do_not_abort _ (by decide)).1,
    (record_failures_do_not_abort _ (by decide)).2.1⟩

/-- C10: on a run that passes the schema check, every prepared record
lands in exactly one of the created, updated or error tallies, so
created + updated + errorsCount = prepared, and each of created, updated,
skipped and errorsCount is bounded by the fetched record count. -/
theorem summary_tallies_bounded (env : SyncEnv)
    (h : env.schema.contains UNIQUE_PROP = true) :
    (GET env).1.created + (GET env).1.updated + (GET env).1.errorsCount =
      (GET env).1.prepared ∧
    (GET env).1.prepared ≤ (GET env).1.cin7Count ∧
    (GET env).1.created ≤ (GET env).1.cin7Count ∧
    (GET env).1.updated ≤ (GET env).1.cin7Count ∧
    (GET env).1.skipped ≤ (GET env).1.cin7Count ∧
    (GET env).1.errorsCount ≤ (GET env).1.cin7Count := by
  have hsize : (prepareOrders (fetchAllOrders env.pages env.maxPages).1).1.length +
      laterDupCount [] (fetchAllOrders env.pages env.maxPages).1 +
      (prepareOrders (fetchAllOrders env.pages env.maxPages).1).2 =
      (fetchAllOrders env.pages env.maxPages).1.length :=
    prepareLoop_size [] (fetchAllOrders env.pages env.maxPages).1
  have hpart := writeLoop_partition env
    (prepareOrders (fetchAllOrders env.pages env.maxPages).1).1
  simp only [GET_success env h]
  refine ⟨?_, ?_, ?_, ?_, ?_, ?_⟩ <;> first
    | trivial
    | omega

/-- Witness for the tally-consistency theorem on a concrete run with one
duplicate, one id-less record, one failing write and one update. -/
theorem summary_tallies_bounded_witness :
    (["cin7_order_id"] : List String).contains UNIQUE_PROP = true ∧
    (GET (SyncEnv.mk ["cin7_order_id"]
      (fun p => if p = 1 then [({ id := JsVal.vStr "A" } : Cin7Order),
        { reference := JsVal.vStr "A" }, {}] else []) 5
      (fun o => if o = { id := JsVal.vStr "A" } then
        .foundUpdateOk "77" else .searchFail "HubSpot error 500"))).1.created +
      (GET (SyncEnv.mk ["cin7_order_id"]
        (fun p => if p = 1 then [({ id := JsVal.vStr "A" } : Cin7Order),
          { reference := JsVal.vStr "A" }, {}] else []) 5
        (fun o => if o = { id := JsVal.vStr "A" } then
          .foundUpdateOk "77" else .searchFail "HubSpot error 500"))).1.updated +
      (GET (SyncEnv.mk ["cin7_order_id"]
        (fun p => if p = 1 then [({ id := JsVal.vStr "A" } : Cin7Order),
          { reference := JsVal.vStr "A" }, {}] else []) 5
        (fun o => if o = { id := JsVal.vStr "A" } then
          .foundUpdateOk "77" else .searchFail "HubSpot error 500"))).1.errorsCount =
      (GET (SyncEnv.mk ["cin7_order_id"]
        (fun p => if p = 1 then [({ id := JsVal.vStr "A" } : Cin7Order),
          { reference := JsVal.vStr "A" }, {}] else []) 5
        (fun o => if o = { id := JsVal.vStr "A" } then
          .foundUpdateOk "77" else .searchFail "HubSpot error 500"))).1.prepared :=
  ⟨by decide, (summary_tallies_bounded _ (by decide)).1⟩

end Cin7SyncRoute
